import Mathlib

/-!
Shallow embedding of the cart-synchronization and error-classification core of
the readydish-frontend repository.

Sources embedded:
* `src/lib/errorHandler.ts` — `getErrorMessage`, `getFieldErrors` (namespace `ErrorHandler`)
* `src/lib/api.ts` — the second `getErrorMessage` bundled with the rate-limit
  helpers `getRateLimitInfo`, `formatRetryTime`, `getRateLimitMessage`
  (namespace `Api`)
* `src/contexts/CartContext.tsx` — `loadCart` (unauthenticated branch),
  `addToCart`, `removeFromCart`, `updateQuantity`, `clearCart`,
  `syncToBackend`, `totalItems`, `totalPrice` (namespace `Cart`)

Modelling conventions:
* JavaScript runtime values appearing in parsed JSON are modelled by `JVal`.
  JS `undefined` (a missing field) is `Option.none` at the use sites.
* JS numbers are modelled by `Rat` where fractional values can occur and by
  `Int` where the code only ever compares/adds integers; `NaN` produced by
  `parseInt` is modelled as `Option.none` (`none` = NaN).
* Machine time (`Date.now()`) is passed in explicitly as a `now` parameter.
* Fallible/async calls are modelled by passing the call outcome as an
  explicit argument (`RemoteUpdate`, `RemoteClear`).
-/

/-- JSON-like runtime value (result of `JSON.parse` / an axios response body). -/
inductive JVal where
  | jnull
  | jbool (b : Bool)
  | jnum (n : Rat)
  | jstr (s : String)
  | jarr (xs : List JVal)
  | jobj (fields : List (String × JVal))
deriving Repr

namespace JVal

/-- JavaScript truthiness of a value (`null`, `false`, `0`, and `""` are falsy;
arrays and objects are always truthy). -/
def truthy : JVal → Bool
  | jnull => false
  | jbool b => b
  | jnum n => !(n == 0)
  | jstr s => !(s == "")
  | jarr _ => true
  | jobj _ => true

/-- Whether `typeof v === 'object'` holds in JS (true for objects, arrays and
`null`). -/
def isObjType : JVal → Bool
  | jnull => true
  | jarr _ => true
  | jobj _ => true
  | _ => false

/-- Property access `v[key]`: defined only on objects; `none` models JS
`undefined`. -/
def getField : JVal → String → Option JVal
  | jobj fs, k => (fs.find? (fun p => p.1 == k)).map (fun p => p.2)
  | _, _ => none

/-- Model of `Object.values(v)` for the shapes that can reach it in the
embedded code (objects and arrays; both pass `typeof v === 'object'`). -/
def objectValues : JVal → List JVal
  | jobj fs => fs.map (fun p => p.2)
  | jarr xs => xs
  | _ => []

end JVal

/-- An axios error response: HTTP status, parsed body (`none` = no usable
body / `undefined`), and response headers (axios lower-cases header names). -/
structure ErrResponse where
  status : Int
  data : Option JVal
  headers : List (String × String)

/-- The `unknown` error value handed to the error classifiers:
an `AxiosError` (code, message, optional response), a plain JS `Error`,
or any other value. -/
inductive ErrVal where
  | axios (code : Option String) (message : String) (response : Option ErrResponse)
  | plainError (message : String)
  | otherValue

/-- Test whether the first list is a leading segment of the second
(helper for the substring test below). -/
def charsMatchAt : List Char → List Char → Bool
  | [], _ => true
  | _ :: _, [] => false
  | c :: cs, d :: ds => c == d && charsMatchAt cs ds

/-- Substring occurrence test on character lists. -/
def charsInclude (hay pat : List Char) : Bool :=
  match hay with
  | [] => pat.isEmpty
  | _ :: rest => charsMatchAt pat hay || charsInclude rest pat

/-- Model of JS `s.includes(pat)`. -/
def strIncludes (s pat : String) : Bool :=
  charsInclude s.toList pat.toList

/-- Shared no-response branch of both `getErrorMessage` implementations
(`error.code === 'ECONNABORTED' || error.message.includes('timeout')`,
then `error.message.includes('Network Error')`, else generic). -/
def connMessage (code : Option String) (message : String) : JVal :=
  if code == some "ECONNABORTED" || strIncludes message "timeout" then
    JVal.jstr "Request timed out. Please check your connection and try again."
  else if strIncludes message "Network Error" then
    JVal.jstr "Network error. Please check your internet connection and try again."
  else
    JVal.jstr "Unable to connect to server. Please try again later."

/-- Optional-chained truthy field access `apiError?.key` followed by a JS
truthiness test, as used by the legacy `ApiError` checks in both files:
yields the field value when it is present and truthy. -/
def legacyField (data : Option JVal) (key : String) : Option JVal :=
  match data with
  | some d =>
    match d.getField key with
    | some v => if v.truthy then some v else none
    | none => none
  | none => none

/-- The shared field-errors scan of both implementations:
`apiError?.errors && typeof apiError.errors === 'object'`, then
`Object.values`, then: if the first value is a string return it (with no
emptiness check); if it is a non-empty array return its first element;
otherwise nothing. -/
def errorsMapMessage (data : Option JVal) : Option JVal :=
  match data with
  | some d =>
    match d.getField "errors" with
    | some ev =>
      if ev.truthy && ev.isObjType then
        match ev.objectValues with
        | [] => none
        | first :: _ =>
          match first with
          | JVal.jstr s => some (JVal.jstr s)
          | JVal.jarr [] => none
          | JVal.jarr (x :: _) => some x
          | _ => none
      else none
    | none => none
  | none => none

namespace Api

/-- Accumulate the leading decimal digits of a character list. -/
def parseNatAux : List Char → Nat → Nat
  | c :: cs, acc => if c.isDigit then parseNatAux cs (acc * 10 + (c.toNat - 48)) else acc
  | [], acc => acc

/-- Parse a non-empty leading run of decimal digits; `none` when the list does
not start with a digit. -/
def parseNatLead : List Char → Option Nat
  | c :: cs => if c.isDigit then some (parseNatAux cs (c.toNat - 48)) else none
  | [] => none

/-- Model of JS `parseInt(s, 10)`: skip leading whitespace, accept an optional
sign, then a longest run of digits; `none` models `NaN`. -/
def parseIntJS (s : String) : Option Int :=
  let cs := s.toList.dropWhile (fun c => c == ' ' || c == '\t' || c == '\n' || c == '\r')
  match cs with
  | '-' :: rest => (parseNatLead rest).map (fun n => -(n : Int))
  | '+' :: rest => (parseNatLead rest).map (fun n => (n : Int))
  | _ => (parseNatLead cs).map (fun n => (n : Int))

/-- Case-sensitive lookup of a response header (axios lower-cases names). -/
def getHeader (hs : List (String × String)) (k : String) : Option String :=
  (hs.find? (fun p => p.1 == k)).map (fun p => p.2)

/-- The pattern `headers[k] ? parseInt(headers[k], 10) : 0` used for the three
`x-ratelimit-*` headers: a missing or empty (falsy) header yields `0`;
otherwise `parseInt` (whose `NaN` is `none`). -/
def headerNumOrZero (hs : List (String × String)) (k : String) : Option Int :=
  match getHeader hs k with
  | some s => if s == "" then some 0 else parseIntJS s
  | none => some 0

/-- The pattern `headers['retry-after'] ? parseInt(...) : undefined`:
outer `none` models `undefined`, inner `none` models `NaN`. -/
def headerRetryAfter (hs : List (String × String)) : Option (Option Int) :=
  match getHeader hs "retry-after" with
  | some s => if s == "" then none else some (parseIntJS s)
  | none => none

/-- JS comparison `b < a` where `a` may be `NaN` (`none`): `NaN` compares
false. -/
def numGt (a : Option Int) (b : Int) : Bool :=
  match a with
  | some n => decide (b < n)
  | none => false

/-- JS comparison `a >= b` with `NaN` comparing false. -/
def numGe (a : Option Int) (b : Int) : Bool :=
  match a with
  | some n => decide (b ≤ n)
  | none => false

/-- JS comparison `a < b` with `NaN` comparing false. -/
def numLt (a : Option Int) (b : Int) : Bool :=
  match a with
  | some n => decide (n < b)
  | none => false

/-- JS comparison `a <= b` with `NaN` comparing false. -/
def numLe (a : Option Int) (b : Int) : Bool :=
  match a with
  | some n => decide (n ≤ b)
  | none => false

/-- Decimal rendering of a possibly-`NaN` number, as JS string interpolation
would produce. -/
def numStr : Option Int → String
  | none => "NaN"
  | some n => toString n

/-- The interpolation `${x !== 1 ? 's' : ''}` selecting singular/plural. -/
def pluralS : Option Int → String
  | some 1 => ""
  | _ => "s"

/-- JS `Math.floor(x / 60)` on a possibly-`NaN` value (only integral inputs
reach it in the source). -/
def div60Floor : Option Int → Option Int
  | some n => some (Int.fdiv n 60)
  | none => none

/-- Rate limit information extracted from response headers
(`limit`/`remaining`/`reset` are numbers with `none` = `NaN`; `retryAfter`
is optional, with inner `none` = `NaN`). -/
structure RateLimitInfo where
  limit : Option Int
  remaining : Option Int
  reset : Option Int
  retryAfter : Option (Option Int)
deriving DecidableEq, Repr

/-- Embedding of `getRateLimitInfo` from `src/lib/api.ts`. -/
def getRateLimitInfo : ErrVal → Option RateLimitInfo
  | ErrVal.axios _ _ (some r) =>
    if r.status == 429 then
      let limit := headerNumOrZero r.headers "x-ratelimit-limit"
      let remaining := headerNumOrZero r.headers "x-ratelimit-remaining"
      let reset := headerNumOrZero r.headers "x-ratelimit-reset"
      let retryAfter := headerRetryAfter r.headers
      if numGt limit 0 || numGe remaining 0 || numGt reset 0 then
        some { limit := limit, remaining := remaining, reset := reset, retryAfter := retryAfter }
      else
        none
    else
      none
  | _ => none

/-- Embedding of `formatRetryTime` from `src/lib/api.ts`; `now` stands for
`Math.floor(Date.now() / 1000)`. -/
def formatRetryTime (now : Int) (resetTimestamp : Option Int) : String :=
  let secondsUntilReset := resetTimestamp.map (fun r => r - now)
  if numLe secondsUntilReset 0 then
    "now"
  else if numLt secondsUntilReset 60 then
    "in " ++ numStr secondsUntilReset ++ " second" ++ pluralS secondsUntilReset
  else
    let minutesUntilReset := div60Floor secondsUntilReset
    if numLt minutesUntilReset 60 then
      "in " ++ numStr minutesUntilReset ++ " minute" ++ pluralS minutesUntilReset
    else
      let hoursUntilReset := div60Floor minutesUntilReset
      "in " ++ numStr hoursUntilReset ++ " hour" ++ pluralS hoursUntilReset

/-- Embedding of `getRateLimitMessage` from `src/lib/api.ts`. -/
def getRateLimitMessage (now : Int) (e : ErrVal) : Option String :=
  match getRateLimitInfo e with
  | none => none
  | some info =>
    match info.retryAfter with
    | some retryAfter =>
      if numLt retryAfter 60 then
        some ("Too many attempts. Please try again in " ++ numStr retryAfter ++ " second" ++ pluralS retryAfter ++ ".")
      else
        let minutes := div60Floor retryAfter
        if numLt minutes 60 then
          some ("Too many attempts. Please try again in " ++ numStr minutes ++ " minute" ++ pluralS minutes ++ ".")
        else
          let hours := div60Floor minutes
          some ("Too many attempts. Please try again in " ++ numStr hours ++ " hour" ++ pluralS hours ++ ".")
    | none =>
      if numGt info.reset 0 then
        some ("Too many attempts. You can try again " ++ formatRetryTime now info.reset ++ ".")
      else if numGt info.limit 0 && numGe info.remaining 0 then
        some ("Too many attempts. " ++ numStr info.remaining ++ " attempt" ++ pluralS info.remaining ++ " remaining. Please try again later.")
      else
        some "Too many attempts. Please try again later."

/-- The status-keyed fallback `switch` of the `api.ts` `getErrorMessage`
(whose 429 case consults `getRateLimitMessage`). -/
def statusMessage (now : Int) (code : Option String) (message : String) (r : ErrResponse) : JVal :=
  if r.status == 400 then JVal.jstr "Invalid request. Please check your input and try again."
  else if r.status == 401 then JVal.jstr "Invalid credentials. Please check your email and password."
  else if r.status == 403 then JVal.jstr "You do not have permission to perform this action."
  else if r.status == 404 then JVal.jstr "The requested resource was not found."
  else if r.status == 429 then
    match getRateLimitMessage now (ErrVal.axios code message (some r)) with
    | some m => JVal.jstr m
    | none => JVal.jstr "Too many requests. Please wait a moment and try again."
  else if r.status == 500 then JVal.jstr "Server error. Please try again later."
  else if r.status == 502 || r.status == 503 || r.status == 504 then
    JVal.jstr "Service temporarily unavailable. Please try again later."
  else JVal.jstr ("An error occurred (" ++ toString r.status ++ "). Please try again.")

/-- The object-gated non-empty string field check of `api.ts`:
`responseData && typeof responseData === 'object'` and then
`key in responseData && typeof responseData[key] === 'string' && responseData[key]`. -/
def strField (data : Option JVal) (key : String) : Option String :=
  match data with
  | some d =>
    if d.truthy && d.isObjType then
      match d.getField key with
      | some (JVal.jstr s) => if s == "" then none else some s
      | _ => none
    else none
  | none => none

/-- Embedding of the `getErrorMessage` bundled with the rate-limit helpers in
`src/lib/api.ts` (order: non-empty string `error` field, non-empty string
`message` field, truthy legacy `error`, truthy legacy `message`, first
field-errors value, status table). -/
def getErrorMessage (now : Int) : ErrVal → JVal
  | ErrVal.axios code message none => connMessage code message
  | ErrVal.axios code message (some r) =>
    match strField r.data "error" with
    | some s => JVal.jstr s
    | none =>
      match strField r.data "message" with
      | some s => JVal.jstr s
      | none =>
        match legacyField r.data "error" with
        | some v => v
        | none =>
          match legacyField r.data "message" with
          | some v => v
          | none =>
            match errorsMapMessage r.data with
            | some v => v
            | none => statusMessage now code message r
  | ErrVal.plainError message => JVal.jstr message
  | ErrVal.otherValue => JVal.jstr "An unexpected error occurred. Please try again."

end Api

namespace ErrorHandler

/-- The status-keyed fallback `switch` of the `errorHandler.ts`
`getErrorMessage` (fixed generic message for 429). -/
def statusMessage (status : Int) : JVal :=
  if status == 400 then JVal.jstr "Invalid request. Please check your input and try again."
  else if status == 401 then JVal.jstr "Invalid credentials. Please check your email and password."
  else if status == 403 then JVal.jstr "You do not have permission to perform this action."
  else if status == 404 then JVal.jstr "The requested resource was not found."
  else if status == 429 then JVal.jstr "Too many requests. Please wait a moment and try again."
  else if status == 500 then JVal.jstr "Server error. Please try again later."
  else if status == 502 || status == 503 || status == 504 then
    JVal.jstr "Service temporarily unavailable. Please try again later."
  else JVal.jstr ("An error occurred (" ++ toString status ++ "). Please try again.")

/-- Embedding of `getErrorMessage` from `src/lib/errorHandler.ts`
(order: truthy `error` field, first field-errors value, status table — it
never consults a `message` field and never consults rate-limit headers). -/
def getErrorMessage : ErrVal → JVal
  | ErrVal.axios code message none => connMessage code message
  | ErrVal.axios _ _ (some r) =>
    match legacyField r.data "error" with
    | some v => v
    | none =>
      match errorsMapMessage r.data with
      | some v => v
      | none => statusMessage r.status
  | ErrVal.plainError message => JVal.jstr message
  | ErrVal.otherValue => JVal.jstr "An unexpected error occurred. Please try again."

end ErrorHandler

namespace Cart

/-- Dish snapshot carried by a cart line. `price` is optional because the
unauthenticated `loadCart` filter admits stored entries with no numeric
price, and the `totalPrice` reduce guards for exactly that case. -/
structure Dish where
  id : String
  name : String
  price : Option Rat
  isAvailable : Bool
deriving DecidableEq, Repr

/-- A cart line: dish snapshot plus quantity. Quantities are JS numbers; the
embedded operations only add and compare them and the claims concern
integral quantities, so `Int` is used. -/
structure CartItem where
  dish : Dish
  quantity : Int
deriving DecidableEq, Repr

/-- The pure list update performed by `addToCart` in
`src/contexts/CartContext.tsx`: `findIndex` on `dish.id`, then either a
positional `map` bumping the matching index or an append. -/
def addToCartItems (items : List CartItem) (dish : Dish) (quantity : Int) : List CartItem :=
  match List.findIdx? (fun it => it.dish.id == dish.id) items with
  | some existingItemIndex =>
    items.mapIdx (fun index it =>
      if index == existingItemIndex then { it with quantity := it.quantity + quantity } else it)
  | none => items ++ [{ dish := dish, quantity := quantity }]

/-- The pure list update performed by `removeFromCart`:
`items.filter(item => item.dish.id !== dishId)`. -/
def removeFromCartItems (items : List CartItem) (dishId : String) : List CartItem :=
  items.filter (fun it => !(it.dish.id == dishId))

/-- The pure list update performed by the `quantity > 0` branch of
`updateQuantity`: a `map` setting the quantity of every line whose dish id
matches. -/
def updateQuantityItems (items : List CartItem) (dishId : String) (quantity : Int) : List CartItem :=
  items.map (fun it => if it.dish.id == dishId then { it with quantity := quantity } else it)

/-- The `totalItems` reduce of `CartContext.tsx`. Its `!item` and
non-number-quantity guards are unrepresentable in the typed model (every
`CartItem` carries an `Int` quantity), so the fold is the guarded sum. -/
def totalItems (items : List CartItem) : Int :=
  items.foldl (fun sum it => sum + it.quantity) 0

/-- The `totalPrice` reduce of `CartContext.tsx`: a line whose dish has no
numeric price is skipped by the guard and contributes nothing. -/
def totalPrice (items : List CartItem) : Rat :=
  items.foldl (fun sum it =>
    match it.dish.price with
    | some p => sum + p * (it.quantity : Rat)
    | none => sum) 0

/-- Observable cart state: the in-memory `items` plus the local-storage cart
entry (`none` = key absent). -/
structure World where
  items : List CartItem
  storage : Option (List CartItem)
deriving DecidableEq, Repr

/-- Outcome of the remote `cartService.updateCart` call: the cart the server
returns, or a failure value. -/
inductive RemoteUpdate where
  | ok (items : List CartItem)
  | err (e : ErrVal)

/-- Outcome of the remote `cartService.clearCart` call. -/
inductive RemoteClear where
  | ok
  | err (e : ErrVal)

/-- Embedding of `syncToBackend`: unauthenticated → overwrite local storage;
authenticated → on success adopt the server cart into memory and storage, on
failure leave state as-is and throw `new Error(getErrorMessage(error))`
(the `errorHandler.ts` classifier, which is the one `CartContext.tsx`
imports). The second component is the thrown message (`none` = no throw). -/
def syncToBackend (isAuthenticated : Bool) (remote : RemoteUpdate) (w : World)
    (newItems : List CartItem) : World × Option JVal :=
  if isAuthenticated = false then
    ({ w with storage := some newItems }, none)
  else
    match remote with
    | RemoteUpdate.ok cartItems => ({ items := cartItems, storage := some cartItems }, none)
    | RemoteUpdate.err e => (w, some (ErrorHandler.getErrorMessage e))

/-- Embedding of `addToCart`: optimistic in-memory update followed by
`syncToBackend`. -/
def addToCart (isAuthenticated : Bool) (remote : RemoteUpdate) (w : World)
    (dish : Dish) (quantity : Int) : World × Option JVal :=
  let newItems := addToCartItems w.items dish quantity
  syncToBackend isAuthenticated remote { w with items := newItems } newItems

/-- Embedding of `removeFromCart`. -/
def removeFromCart (isAuthenticated : Bool) (remote : RemoteUpdate) (w : World)
    (dishId : String) : World × Option JVal :=
  let newItems := removeFromCartItems w.items dishId
  syncToBackend isAuthenticated remote { w with items := newItems } newItems

/-- Embedding of `updateQuantity`: delegates to `removeFromCart` when the
requested quantity is `<= 0`. -/
def updateQuantity (isAuthenticated : Bool) (remote : RemoteUpdate) (w : World)
    (dishId : String) (quantity : Int) : World × Option JVal :=
  if quantity ≤ 0 then
    removeFromCart isAuthenticated remote w dishId
  else
    let newItems := updateQuantityItems w.items dishId quantity
    syncToBackend isAuthenticated remote { w with items := newItems } newItems

/-- Embedding of `clearCart`: when authenticated the remote clear is attempted
and any failure is caught and only logged; in every case the in-memory cart
is emptied and the storage key removed, and nothing is thrown. -/
def clearCart (isAuthenticated : Bool) (remote : RemoteClear) (w : World) : World × Option JVal :=
  match isAuthenticated, remote with
  | true, RemoteClear.ok => ({ items := [], storage := none }, none)
  | true, RemoteClear.err _ => ({ items := [], storage := none }, none)
  | false, _ => ({ items := [], storage := none }, none)

/-- Cart invariant stated by the spec: pairwise-distinct dish ids and
positive quantities. -/
def cartInv (items : List CartItem) : Prop :=
  (items.map (fun it => it.dish.id)).Nodup ∧ ∀ it ∈ items, 0 < it.quantity

instance (items : List CartItem) : Decidable (cartInv items) := by
  unfold cartInv; infer_instance

/-- Raw dish value inside a locally stored cart entry: every field may be
missing. A stored non-string id is not representable here; the code only
tests its truthiness and the claims only need present/empty/missing ids. -/
structure RawDish where
  id : Option String
  name : Option String
  price : Option Rat
deriving DecidableEq, Repr

/-- Raw stored cart entry; `quantity = none` models a missing or non-number
value (`typeof item.quantity === 'number'` fails). -/
structure RawItem where
  dish : Option RawDish
  quantity : Option Rat
deriving DecidableEq, Repr

/-- The local-storage cart value as `loadCart` sees it: key absent,
unparsable (or not an array, so that `.filter` throws and the `catch` sets
`[]`), or a parsed array whose entries may be JSON `null` (`none`). -/
inductive StoredCart where
  | absent
  | malformed
  | parsed (entries : List (Option RawItem))

/-- Truthiness of the optional id string (the `item.dish.id` test). -/
def truthyId : Option String → Bool
  | some s => !(s == "")
  | none => false

/-- The filter predicate of the unauthenticated `loadCart` branch:
`item && item.dish && item.dish.id && typeof item.quantity === 'number'`. -/
def validLocalEntry : Option RawItem → Bool
  | some it =>
    match it.dish with
    | some d => truthyId d.id && it.quantity.isSome
    | none => false
  | none => false

/-- Embedding of the unauthenticated branch of `loadCart`: absent key leaves
the in-memory items untouched, a parse failure resets them to `[]`, and a
parsed array is filtered by `validLocalEntry`. -/
def loadCartLocal (stored : StoredCart) (current : List (Option RawItem)) : List (Option RawItem) :=
  match stored with
  | StoredCart.absent => current
  | StoredCart.malformed => []
  | StoredCart.parsed entries => entries.filter validLocalEntry

/-- The entry filter as claim C1 states it: it additionally discards entries
missing a numeric price. Written from the claim text, for comparison with
`validLocalEntry`. -/
def claimValidLocalEntry : Option RawItem → Bool
  | some it =>
    match it.dish with
    | some d => truthyId d.id && it.quantity.isSome && d.price.isSome
    | none => false
  | none => false

/-- Dish id of a raw entry, when present. -/
def rawEntryId : Option RawItem → Option String
  | some it => it.dish.bind (fun d => d.id)
  | none => none

/-- Positivity of a raw entry's quantity. -/
def rawQuantityPos : Option RawItem → Bool
  | some it =>
    match it.quantity with
    | some q => decide (0 < q)
    | none => false
  | none => false

/-- The spec's cart invariant read over raw stored entries: pairwise-distinct
dish ids and positive quantities. -/
def rawCartInv (entries : List (Option RawItem)) : Prop :=
  (entries.map rawEntryId).Nodup ∧ ∀ e ∈ entries, rawQuantityPos e = true

instance (entries : List (Option RawItem)) : Decidable (rawCartInv entries) := by
  unfold rawCartInv; infer_instance

end Cart

/-- Membership in a positional map is membership in the base list at some
index, transformed. -/
theorem mem_mapIdx_iff {α β : Type} {f : Nat → α → β} {l : List α} {b : β} :
    b ∈ l.mapIdx f ↔ ∃ n a, l[n]? = some a ∧ f n a = b := by
  constructor
  · intro hb
    rcases List.mem_iff_getElem?.mp hb with ⟨n, hn⟩
    rw [List.getElem?_mapIdx] at hn
    cases ha : l[n]? with
    | none => rw [ha] at hn; simp at hn
    | some a =>
      rw [ha] at hn
      simp only [Option.map_some'] at hn
      exact ⟨n, a, ha, Option.some.inj hn⟩
  · rintro ⟨n, a, ha, hfa⟩
    exact List.mem_iff_getElem?.mpr ⟨n, by rw [List.getElem?_mapIdx, ha]; simp [hfa]⟩

/-- A positional map whose transform preserves an observation `g` preserves
the `g`-image of the list. -/
theorem map_mapIdx_of_preserve {α β : Type} (l : List α) (f : Nat → α → α) (g : α → β)
    (hg : ∀ i a, g (f i a) = g a) : (l.mapIdx f).map g = l.map g := by
  apply List.ext_getElem?
  intro n
  rw [List.getElem?_map, List.getElem?_mapIdx, List.getElem?_map]
  cases l[n]? with
  | none => rfl
  | some a => simp [hg]

/-- Stored entry with a truthy dish id, a numeric quantity and a price. -/
def exValid : Option Cart.RawItem :=
  some { dish := some { id := some "a", name := some "Apple pie", price := some 10 }, quantity := some 2 }

/-- Stored entry whose dish has no id field. -/
def exNoId : Option Cart.RawItem :=
  some { dish := some { id := none, name := some "Broken", price := some 5 }, quantity := some 1 }

/-- Stored entry with a truthy dish id and numeric quantity but no numeric
price. -/
def exNoPrice : Option Cart.RawItem :=
  some { dish := some { id := some "a", name := some "Apple pie", price := none }, quantity := some 1 }

/-- Stored entry with dish id "a" and a negative quantity. -/
def exDupNeg : Option Cart.RawItem :=
  some { dish := some { id := some "a", name := some "Apple pie", price := some 4 }, quantity := some (-3) }

/-- Stored entry that repeats dish id "a" with a positive quantity. -/
def exDupPos : Option Cart.RawItem :=
  some { dish := some { id := some "a", name := some "Apple pie", price := some 4 }, quantity := some 2 }

/-- Claim C1 is false as stated: an entry with a valid dish id and numeric
quantity but no numeric price is KEPT by the unauthenticated load, although
the claim says every entry missing a numeric price is discarded (the claim
filter `claimValidLocalEntry` rejects it, so the claimed result would be the
empty list). -/
theorem C1_counterexample :
    Cart.loadCartLocal (Cart.StoredCart.parsed [exNoPrice]) [] = [exNoPrice] ∧
    Cart.claimValidLocalEntry exNoPrice = false ∧
    Cart.loadCartLocal (Cart.StoredCart.parsed [exNoPrice]) [] ≠
      ([exNoPrice].filter Cart.claimValidLocalEntry) := by
  refine ⟨by decide, by decide, by decide⟩

/-- Claim C1 (amended): the unauthenticated load keeps exactly (and in order)
the entries that have a dish with a truthy id and a numeric quantity — the
price is not checked in this path — and a store with one valid line and one
entry missing `dish.id` loads to exactly the valid line. -/
theorem C1_amended :
    (∀ (entries current : List (Option Cart.RawItem)) (e : Option Cart.RawItem),
      e ∈ Cart.loadCartLocal (Cart.StoredCart.parsed entries) current ↔
        e ∈ entries ∧ Cart.validLocalEntry e = true) ∧
    Cart.loadCartLocal (Cart.StoredCart.parsed [exValid, exNoId]) [] = [exValid] := by
  constructor
  · intro entries current e
    simp [Cart.loadCartLocal, List.mem_filter]
  · decide

/-- Claim C2 is false as stated: the empty cart is a reachable state
satisfying the invariant, yet applying the load operation to a stored value
holding two entries with the same dish id, one with a negative quantity,
yields a cart violating both the distinct-ids and the positive-quantity
parts (the load filter checks neither). -/
theorem C2_counterexample :
    Cart.rawCartInv [] ∧
    Cart.loadCartLocal (Cart.StoredCart.parsed [exDupNeg, exDupPos]) [] = [exDupNeg, exDupPos] ∧
    ¬ Cart.rawCartInv [exDupNeg, exDupPos] := by
  refine ⟨by decide, by decide, by decide⟩

/-- Claim C2 (amended): the mutation operations do preserve the invariant —
adding with a positive quantity, removing, updating to a positive quantity
(non-positive updates delegate to remove), and clearing all map an invariant
cart to an invariant cart; only the load path fails to re-establish it. -/
theorem C2_amended (items : List Cart.CartItem) (hinv : Cart.cartInv items) :
    (∀ dish q, 0 < q → Cart.cartInv (Cart.addToCartItems items dish q)) ∧
    (∀ dishId, Cart.cartInv (Cart.removeFromCartItems items dishId)) ∧
    (∀ dishId q, 0 < q → Cart.cartInv (Cart.updateQuantityItems items dishId q)) ∧
    Cart.cartInv [] := by
  obtain ⟨hnd, hpos⟩ := hinv
  refine ⟨?_, ?_, ?_, by decide⟩
  · intro dish q hq
    unfold Cart.addToCartItems
    cases hidx : List.findIdx? (fun it => it.dish.id == dish.id) items with
    | some i =>
      refine ⟨?_, ?_⟩
      · rw [map_mapIdx_of_preserve]
        · exact hnd
        · intro j a
          by_cases hj : (j == i) = true <;> simp [hj]
      · intro it hit
        rcases mem_mapIdx_iff.mp hit with ⟨n, a, ha, hfa⟩
        have hmem : a ∈ items := List.mem_iff_getElem?.mpr ⟨n, ha⟩
        have hqa := hpos a hmem
        by_cases hn : (n == i) = true
        · rw [← hfa]
          simp only [hn, if_true]
          omega
        · rw [← hfa]
          simp only [hn]
          simpa using hqa
    | none =>
      refine ⟨?_, ?_⟩
      · rw [List.map_append, List.nodup_append]
        refine ⟨hnd, by simp, ?_⟩
        intro x hx hx'
        simp only [List.map_cons, List.map_nil, List.mem_singleton] at hx'
        rcases List.mem_map.mp hx with ⟨a, ham, hga⟩
        have hfalse := List.findIdx?_eq_none_iff.mp hidx a ham
        simp only [beq_eq_false_iff_ne, ne_eq] at hfalse
        exact hfalse (by rw [hga, hx'])
      · intro it hit
        rcases List.mem_append.mp hit with h | h
        · exact hpos it h
        · simp only [List.mem_singleton] at h
          rw [h]
          exact hq
  · intro dishId
    refine ⟨?_, ?_⟩
    · exact (((List.filter_sublist items).map (fun it => it.dish.id)).nodup) hnd
    · intro it hit
      exact hpos it (List.mem_filter.mp hit).1
  · intro dishId q hq
    refine ⟨?_, ?_⟩
    · unfold Cart.updateQuantityItems
      rw [List.map_map]
      have hfun : ((fun it : Cart.CartItem => it.dish.id) ∘
          (fun it : Cart.CartItem =>
            if it.dish.id == dishId then { it with quantity := q } else it)) =
          fun it : Cart.CartItem => it.dish.id := by
        funext a
        by_cases h : a.dish.id = dishId <;> simp [h]
      rw [hfun]
      exact hnd
    · intro it hit
      rcases List.mem_map.mp hit with ⟨a, ham, hfa⟩
      by_cases h : (a.dish.id == dishId) = true
      · rw [← hfa]
        simp only [h, if_true]
        exact hq
      · rw [← hfa]
        simp only [h]
        simpa using hpos a ham

/-- Witness for the amended claim C2 at a concrete invariant cart. -/
theorem C2_amended_witness :
    Cart.cartInv (Cart.addToCartItems
      [{ dish := { id := "a", name := "Apple pie", price := some 3, isAvailable := true }, quantity := 2 }]
      { id := "b", name := "Burger", price := some 5, isAvailable := true } 1) ∧
    Cart.cartInv (Cart.removeFromCartItems
      [{ dish := { id := "a", name := "Apple pie", price := some 3, isAvailable := true }, quantity := 2 }] "a") ∧
    Cart.cartInv (Cart.updateQuantityItems
      [{ dish := { id := "a", name := "Apple pie", price := some 3, isAvailable := true }, quantity := 2 }] "a" 7) :=
  ⟨(C2_amended _ (by decide)).1 _ 1 (by decide),
   ((C2_amended [{ dish := { id := "a", name := "Apple pie", price := some 3, isAvailable := true }, quantity := 2 }] (by decide)).2.1) "a",
   ((C2_amended [{ dish := { id := "a", name := "Apple pie", price := some 3, isAvailable := true }, quantity := 2 }] (by decide)).2.2.1) "a" 7 (by decide)⟩

/-- Claim C3: a non-positive quantity makes `updateQuantity` behave exactly as
`removeFromCart` (same resulting world and same thrown/persistence outcome,
for every auth state and remote outcome); a positive quantity sets the
matching line's quantity and hands the new list to the persistence step. -/
theorem C3_updateQuantity_delegates (isAuth : Bool) (remote : Cart.RemoteUpdate)
    (w : Cart.World) (dishId : String) (q : Int) :
    (q ≤ 0 → Cart.updateQuantity isAuth remote w dishId q =
      Cart.removeFromCart isAuth remote w dishId) ∧
    (0 < q → Cart.updateQuantity isAuth remote w dishId q =
      Cart.syncToBackend isAuth remote
        { w with items := w.items.map (fun it => if it.dish.id == dishId then { it with quantity := q } else it) }
        (w.items.map (fun it => if it.dish.id == dishId then { it with quantity := q } else it))) := by
  constructor
  · intro h
    unfold Cart.updateQuantity
    rw [if_pos h]
  · intro h
    unfold Cart.updateQuantity
    rw [if_neg (by omega)]
    rfl

/-- Concrete world used by several witnesses. -/
def wEx : Cart.World :=
  { items := [{ dish := { id := "a", name := "Apple pie", price := some 3, isAvailable := true },
                quantity := 2 }],
    storage := none }

/-- Witness for claim C3 at quantity 0, -5 and 5. -/
theorem C3_witness :
    Cart.updateQuantity false (Cart.RemoteUpdate.ok []) wEx "a" 0 =
      Cart.removeFromCart false (Cart.RemoteUpdate.ok []) wEx "a" ∧
    Cart.updateQuantity false (Cart.RemoteUpdate.ok []) wEx "a" (-5) =
      Cart.removeFromCart false (Cart.RemoteUpdate.ok []) wEx "a" ∧
    Cart.updateQuantity false (Cart.RemoteUpdate.ok []) wEx "a" 5 =
      Cart.syncToBackend false (Cart.RemoteUpdate.ok [])
        { wEx with items := wEx.items.map (fun it => if it.dish.id == "a" then { it with quantity := 5 } else it) }
        (wEx.items.map (fun it => if it.dish.id == "a" then { it with quantity := 5 } else it)) :=
  ⟨(C3_updateQuantity_delegates false (Cart.RemoteUpdate.ok []) wEx "a" 0).1 (by decide),
   (C3_updateQuantity_delegates false (Cart.RemoteUpdate.ok []) wEx "a" (-5)).1 (by decide),
   (C3_updateQuantity_delegates false (Cart.RemoteUpdate.ok []) wEx "a" 5).2 (by decide)⟩

/-- Claim C4: when a line with the dish's id exists at (first) index `i`,
`addToCart` keeps the list length, bumps exactly position `i` by the given
quantity keeping its dish, and leaves every other position untouched (so no
second line for the dish id is created and the quantity is not replaced);
when no line matches, it appends a new line with the given quantity. -/
theorem C4_addToCart_increments (items : List Cart.CartItem) (dish : Cart.Dish) (q : Int) :
    (∀ i, List.findIdx? (fun it => it.dish.id == dish.id) items = some i →
      (Cart.addToCartItems items dish q).length = items.length ∧
      ∀ n, (Cart.addToCartItems items dish q)[n]? =
        (if n = i then (items[n]?).map (fun it => { it with quantity := it.quantity + q })
         else items[n]?)) ∧
    (List.findIdx? (fun it => it.dish.id == dish.id) items = none →
      Cart.addToCartItems items dish q = items ++ [{ dish := dish, quantity := q }]) := by
  constructor
  · intro i hidx
    unfold Cart.addToCartItems
    rw [hidx]
    refine ⟨List.length_mapIdx, ?_⟩
    intro n
    rw [List.getElem?_mapIdx]
    by_cases hn : n = i
    · subst hn
      simp
    · simp only [hn, if_false]
      cases items[n]? <;> simp [hn]
  · intro hidx
    unfold Cart.addToCartItems
    rw [hidx]

/-- Witness for claim C4: a cart holding ids "a","b"; adding dish "b" bumps
index 1 in place, adding a fresh dish "c" appends. -/
theorem C4_witness :
    (Cart.addToCartItems
        [{ dish := { id := "a", name := "Apple pie", price := some 3, isAvailable := true }, quantity := 2 },
         { dish := { id := "b", name := "Burger", price := some 5, isAvailable := true }, quantity := 1 }]
        { id := "b", name := "Burger", price := some 5, isAvailable := true } 4).length = 2 ∧
    Cart.addToCartItems
        [{ dish := { id := "a", name := "Apple pie", price := some 3, isAvailable := true }, quantity := 2 }]
        { id := "c", name := "Cake", price := some 7, isAvailable := true } 1 =
      [{ dish := { id := "a", name := "Apple pie", price := some 3, isAvailable := true }, quantity := 2 },
       { dish := { id := "c", name := "Cake", price := some 7, isAvailable := true }, quantity := 1 }] :=
  ⟨((C4_addToCart_increments
      [{ dish := { id := "a", name := "Apple pie", price := some 3, isAvailable := true }, quantity := 2 },
       { dish := { id := "b", name := "Burger", price := some 5, isAvailable := true }, quantity := 1 }]
      { id := "b", name := "Burger", price := some 5, isAvailable := true } 4).1 1 (by decide)).1,
   (C4_addToCart_increments
      [{ dish := { id := "a", name := "Apple pie", price := some 3, isAvailable := true }, quantity := 2 }]
      { id := "c", name := "Cake", price := some 7, isAvailable := true } 1).2 (by decide)⟩

/-- Folding the guarded quantity sum from any accumulator adds the sum of
quantities. -/
theorem totalItems_foldl_aux (items : List Cart.CartItem) (a : Int) :
    items.foldl (fun sum it => sum + it.quantity) a =
      a + (items.map (fun it => it.quantity)).sum := by
  induction items generalizing a with
  | nil => simp
  | cons x xs ih => simp [List.foldl_cons, ih, add_assoc]

/-- Folding the price-guarded sum from any accumulator adds the sum of
price times quantity, provided every line carries a numeric price. -/
theorem totalPrice_foldl_aux :
    ∀ (items : List Cart.CartItem), (∀ it ∈ items, it.dish.price.isSome) → ∀ (a : Rat),
      items.foldl (fun sum it =>
          match it.dish.price with
          | some p => sum + p * (it.quantity : Rat)
          | none => sum) a =
        a + (items.map (fun it => (it.dish.price.getD 0) * (it.quantity : Rat))).sum
  | [], _, a => by simp
  | x :: xs, h, a => by
    rcases Option.isSome_iff_exists.mp (h x (by simp)) with ⟨p, hp⟩
    have hxs : ∀ it ∈ xs, it.dish.price.isSome := fun it hit => h it (by simp [hit])
    have ih := totalPrice_foldl_aux xs hxs
    simp [List.foldl_cons, hp, ih, add_assoc]

/-- Claim C5: the exposed totals are functions of the line list alone;
`totalItems` is the sum of line quantities, and `totalPrice` is the sum of
price times quantity over all lines whenever every line carries a numeric
price (a line without one is skipped by the reduce's guard). -/
theorem C5_totals (items : List Cart.CartItem) :
    Cart.totalItems items = (items.map (fun it => it.quantity)).sum ∧
    ((∀ it ∈ items, it.dish.price.isSome) →
      Cart.totalPrice items =
        (items.map (fun it => (it.dish.price.getD 0) * (it.quantity : Rat))).sum) := by
  constructor
  · have h := totalItems_foldl_aux items 0
    simpa [Cart.totalItems] using h
  · intro hp
    have h := totalPrice_foldl_aux items hp 0
    simpa [Cart.totalPrice] using h

/-- A concrete two-line cart with priced dishes. -/
def cart2Ex : List Cart.CartItem :=
  [{ dish := { id := "a", name := "Apple pie", price := some 3, isAvailable := true }, quantity := 2 },
   { dish := { id := "b", name := "Burger", price := some 5, isAvailable := true }, quantity := 1 }]

/-- Witness for claim C5 on a concrete two-line cart. -/
theorem C5_witness :
    Cart.totalPrice cart2Ex =
      (cart2Ex.map (fun it => (it.dish.price.getD 0) * ((it.quantity : Int) : Rat))).sum :=
  (C5_totals cart2Ex).2 (by decide)

/-- Claim C6: for every starting world and every remote-clear outcome,
`clearCart` ends with an empty in-memory cart, a removed storage entry, and
no thrown error. -/
theorem C6_clearCart (isAuth : Bool) (remote : Cart.RemoteClear) (w : Cart.World) :
    Cart.clearCart isAuth remote w = ({ items := [], storage := none }, none) := by
  cases isAuth <;> cases remote <;> rfl

/-- Claim C7: when the authenticated persist call fails, each mutation throws
exactly the classified message (`errorHandler.ts`'s `getErrorMessage`) and
leaves the in-memory cart at its optimistic post-mutation value. -/
theorem C7_persist_failure (w : Cart.World) (e : ErrVal) :
    (∀ dish q, Cart.addToCart true (Cart.RemoteUpdate.err e) w dish q =
      ({ w with items := Cart.addToCartItems w.items dish q },
        some (ErrorHandler.getErrorMessage e))) ∧
    (∀ dishId, Cart.removeFromCart true (Cart.RemoteUpdate.err e) w dishId =
      ({ w with items := Cart.removeFromCartItems w.items dishId },
        some (ErrorHandler.getErrorMessage e))) ∧
    (∀ dishId q, 0 < q → Cart.updateQuantity true (Cart.RemoteUpdate.err e) w dishId q =
      ({ w with items := Cart.updateQuantityItems w.items dishId q },
        some (ErrorHandler.getErrorMessage e))) := by
  refine ⟨fun dish q => rfl, fun dishId => rfl, fun dishId q hq => ?_⟩
  unfold Cart.updateQuantity
  rw [if_neg (by omega)]
  rfl

/-- Witness for claim C7: a failing persist of a quantity-update leaves the
optimistic value in memory and throws the classified message. -/
theorem C7_witness :
    Cart.updateQuantity true (Cart.RemoteUpdate.err ErrVal.otherValue) wEx "a" 9 =
      ({ wEx with items := Cart.updateQuantityItems wEx.items "a" 9 },
        some (ErrorHandler.getErrorMessage ErrVal.otherValue)) :=
  (C7_persist_failure wEx ErrVal.otherValue).2.2 "a" 9 (by decide)

/-- Claim C9: `getRateLimitInfo` is absent for every response-less or
non-429 error regardless of headers, and on a 429 response it parses the
three `x-ratelimit-*` headers with default 0, parses `retry-after` leaving
it absent when missing, and is populated exactly when
limit>0 or remaining>=0 or reset>0. -/
theorem C9_getRateLimitInfo :
    (∀ code msg, Api.getRateLimitInfo (ErrVal.axios code msg none) = none) ∧
    (∀ msg, Api.getRateLimitInfo (ErrVal.plainError msg) = none) ∧
    Api.getRateLimitInfo ErrVal.otherValue = none ∧
    (∀ code msg r, r.status ≠ 429 →
      Api.getRateLimitInfo (ErrVal.axios code msg (some r)) = none) ∧
    (∀ code msg r, r.status = 429 →
      Api.getRateLimitInfo (ErrVal.axios code msg (some r)) =
        (if Api.numGt (Api.headerNumOrZero r.headers "x-ratelimit-limit") 0
             || Api.numGe (Api.headerNumOrZero r.headers "x-ratelimit-remaining") 0
             || Api.numGt (Api.headerNumOrZero r.headers "x-ratelimit-reset") 0
         then some { limit := Api.headerNumOrZero r.headers "x-ratelimit-limit",
                     remaining := Api.headerNumOrZero r.headers "x-ratelimit-remaining",
                     reset := Api.headerNumOrZero r.headers "x-ratelimit-reset",
                     retryAfter := Api.headerRetryAfter r.headers }
         else none)) ∧
    (∀ hs k, Api.getHeader hs k = none → Api.headerNumOrZero hs k = some 0) ∧
    (∀ hs, Api.getHeader hs "retry-after" = none → Api.headerRetryAfter hs = none) := by
  refine ⟨fun code msg => rfl, fun msg => rfl, rfl, ?_, ?_, ?_, ?_⟩
  · intro code msg r h
    have hb : (r.status == 429) = false := beq_eq_false_iff_ne.mpr h
    simp [Api.getRateLimitInfo, hb]
  · intro code msg r h
    simp [Api.getRateLimitInfo, h]
  · intro hs k h
    unfold Api.headerNumOrZero
    rw [h]
  · intro hs h
    unfold Api.headerRetryAfter
    rw [h]

/-- The spec example 429 response: remaining 0, reset in the future. -/
def r429ex : ErrResponse :=
  { status := 429, data := none,
    headers := [("x-ratelimit-remaining", "0"), ("x-ratelimit-reset", "1999999999")] }

/-- The same headers on a non-429 response. -/
def r404ex : ErrResponse :=
  { status := 404, data := none,
    headers := [("x-ratelimit-remaining", "0"), ("x-ratelimit-reset", "1999999999")] }

/-- Witness for claim C9: populated struct on the spec's 429 example, absent
on a non-429 response with the same headers. -/
theorem C9_witness :
    Api.getRateLimitInfo (ErrVal.axios none "err" (some r429ex)) =
      some { limit := some 0, remaining := some 0, reset := some 1999999999,
             retryAfter := none } ∧
    Api.getRateLimitInfo (ErrVal.axios none "err" (some r404ex)) = none := by
  constructor
  · rw [C9_getRateLimitInfo.2.2.2.2.1 none "err" r429ex rfl]
    decide
  · exact C9_getRateLimitInfo.2.2.2.1 none "err" r404ex (by decide)

/-- When the truthy legacy read of a field yields nothing, the object-gated
non-empty-string read of the same field yields nothing as well. -/
theorem strField_none_of_legacyField_none (data : Option JVal) (key : String)
    (h : legacyField data key = none) : Api.strField data key = none := by
  cases data with
  | none => rfl
  | some d =>
    simp only [legacyField] at h
    simp only [Api.strField]
    by_cases hg : (d.truthy && d.isObjType) = true
    · rw [if_pos hg]
      cases hf : d.getField key with
      | none => simp [hf]
      | some v =>
        cases v with
        | jstr s =>
          simp only [hf]
          by_cases hs : (s == "") = true
          · rw [if_pos hs]
          · exfalso
            simp only [hf] at h
            have hfalse : (s == "") = false := by simpa using hs
            have htr : JVal.truthy (JVal.jstr s) = true := by
              simp [JVal.truthy, hfalse]
            rw [if_pos htr] at h
            exact Option.noConfusion h
        | jnull => simp [hf]
        | jbool b => simp [hf]
        | jnum n => simp [hf]
        | jarr xs => simp [hf]
        | jobj fs => simp [hf]
    · rw [if_neg hg]

/-- When the object-gated string read of a field succeeds, the truthy legacy
read of the same field yields the same string. -/
theorem legacyField_of_strField (data : Option JVal) (key : String) (s : String)
    (h : Api.strField data key = some s) : legacyField data key = some (JVal.jstr s) := by
  cases data with
  | none => simp [Api.strField] at h
  | some d =>
    simp only [Api.strField] at h
    simp only [legacyField]
    by_cases hg : (d.truthy && d.isObjType) = true
    · rw [if_pos hg] at h
      cases hf : d.getField key with
      | none => simp [hf] at h
      | some v =>
        cases v with
        | jstr t =>
          simp only [hf] at h
          by_cases ht : (t == "") = true
          · rw [if_pos ht] at h
            exact Option.noConfusion h
          · rw [if_neg ht] at h
            have hts : t = s := Option.some.inj h
            simp only [hf]
            have hfalse : (t == "") = false := by simpa using ht
            have htr : JVal.truthy (JVal.jstr t) = true := by
              simp [JVal.truthy, hfalse]
            rw [if_pos htr, hts]
        | jnull => simp [hf] at h
        | jbool b => simp [hf] at h
        | jnum n => simp [hf] at h
        | jarr xs => simp [hf] at h
        | jobj fs => simp [hf] at h
    · rw [if_neg hg] at h
      exact Option.noConfusion h

/-- The two status-keyed fallback tables agree whenever a 429 status yields no
rate-limit-derived message. -/
theorem statusMessage_agree (now : Int) (code : Option String) (msg : String) (r : ErrResponse)
    (h429 : r.status = 429 → Api.getRateLimitMessage now (ErrVal.axios code msg (some r)) = none) :
    Api.statusMessage now code msg r = ErrorHandler.statusMessage r.status := by
  unfold Api.statusMessage ErrorHandler.statusMessage
  split_ifs with h1 h2 h3 h4 h5 h6 h7
  · rfl
  · rfl
  · rfl
  · rfl
  · have h429' : r.status = 429 := by simpa using h5
    rw [h429 h429']
  · rfl
  · rfl
  · rfl

/-- Inputs on which the two classifiers agree per the amended claim C10: the
response body holds no truthy `message` field, and when the status is 429 no
rate-limit-derived message is available. Non-response errors always agree. -/
def classifiersAgreeOn (now : Int) (e : ErrVal) : Prop :=
  match e with
  | ErrVal.axios code msg (some r) =>
    legacyField r.data "message" = none ∧
      (r.status = 429 → Api.getRateLimitMessage now (ErrVal.axios code msg (some r)) = none)
  | _ => True

/-- Claim C10 (amended): the `api.ts` and `errorHandler.ts` classifiers return
the same value on every error without a response, on every non-axios error,
and on every response-carrying error whose body has no truthy `message`
field and whose 429 fallback (if taken) has no rate-limit message; the
counterexample shows they genuinely differ outside those conditions. -/
theorem C10_amended (now : Int) (e : ErrVal) (h : classifiersAgreeOn now e) :
    Api.getErrorMessage now e = ErrorHandler.getErrorMessage e := by
  cases e with
  | plainError m => rfl
  | otherValue => rfl
  | axios code msg resp =>
    cases resp with
    | none => rfl
    | some r =>
      obtain ⟨hmsg, h429⟩ := h
      have hstrmsg : Api.strField r.data "message" = none :=
        strField_none_of_legacyField_none _ _ hmsg
      cases h1 : Api.strField r.data "error" with
      | some s =>
        have h2 := legacyField_of_strField _ _ _ h1
        simp [Api.getErrorMessage, ErrorHandler.getErrorMessage, h1, h2]
      | none =>
        cases h3 : legacyField r.data "error" with
        | some v =>
          simp [Api.getErrorMessage, ErrorHandler.getErrorMessage, h1, hstrmsg, hmsg, h3]
        | none =>
          cases h5 : errorsMapMessage r.data with
          | some v =>
            simp [Api.getErrorMessage, ErrorHandler.getErrorMessage, h1, hstrmsg, hmsg, h3, h5]
          | none =>
            simp only [Api.getErrorMessage, ErrorHandler.getErrorMessage, h1, hstrmsg, hmsg, h3, h5]
            exact statusMessage_agree now code msg r h429

/-- Concrete response on which the two classifiers agree (its body has a
truthy `error` field and no `message` field). -/
def rAgree : ErrResponse :=
  { status := 404, data := some (JVal.jobj [("error", JVal.jstr "Dish not found")]), headers := [] }

/-- Witness for the amended claim C10 at a concrete response-carrying error. -/
theorem C10_witness :
    Api.getErrorMessage 0 (ErrVal.axios none "Request failed" (some rAgree)) =
      ErrorHandler.getErrorMessage (ErrVal.axios none "Request failed" (some rAgree)) :=
  C10_amended 0 (ErrVal.axios none "Request failed" (some rAgree))
    ⟨rfl, fun h => absurd h (by decide)⟩

/-- Concrete response whose body's only message is a string `message` field. -/
def rC10 : ErrResponse :=
  { status := 400, data := some (JVal.jobj [("message", JVal.jstr "Email already registered")]),
    headers := [] }

/-- Error built on `rC10`. -/
def eC10 : ErrVal := ErrVal.axios none "Request failed with status code 400" (some rC10)

/-- Claim C10 is false as stated: on a body whose only message is a string
`message` field, the `api.ts` classifier returns that message while the
`errorHandler.ts` classifier (which never reads `message`) falls through to
the 400 status table entry. -/
theorem C10_counterexample :
    Api.getErrorMessage 0 eC10 = JVal.jstr "Email already registered" ∧
    ErrorHandler.getErrorMessage eC10 =
      JVal.jstr "Invalid request. Please check your input and try again." ∧
    Api.getErrorMessage 0 eC10 ≠ ErrorHandler.getErrorMessage eC10 := by
  refine ⟨rfl, rfl, ?_⟩
  intro h
  rw [show Api.getErrorMessage 0 eC10 = JVal.jstr "Email already registered" from rfl,
      show ErrorHandler.getErrorMessage eC10 =
        JVal.jstr "Invalid request. Please check your input and try again." from rfl] at h
  injection h with hs
  exact absurd hs (by decide)

/-- The body-message precedence pipeline as the amended claim C8 states it:
the first available result among, in order, the non-empty string `error`
field, the non-empty string `message` field, the truthy legacy `error`, the
truthy legacy `message`, and the first field-errors value (a string value is
taken even when empty; a non-empty array value contributes its first
element). Written from the claim text, for comparison with the embedded
`Api.getErrorMessage`. -/
def specBodyMessage (data : Option JVal) : Option JVal :=
  List.findSome? (fun get => get data)
    [fun d => (Api.strField d "error").map JVal.jstr,
     fun d => (Api.strField d "message").map JVal.jstr,
     fun d => legacyField d "error",
     fun d => legacyField d "message",
     fun d => errorsMapMessage d]

/-- The `api.ts` classifier as the amended claim C8 describes it: connection
triage without a response, else the first body-derived message, else the
status-keyed table; plain errors return their message verbatim. -/
def specGetErrorMessage (now : Int) : ErrVal → JVal
  | ErrVal.axios code message none => connMessage code message
  | ErrVal.axios code message (some r) =>
    match specBodyMessage r.data with
    | some v => v
    | none => Api.statusMessage now code message r
  | ErrVal.plainError message => JVal.jstr message
  | ErrVal.otherValue => JVal.jstr "An unexpected error occurred. Please try again."

/-- Claim C8 (amended): the `api.ts` `getErrorMessage` realizes exactly the
stated precedence pipeline — body fields in the fixed order with the first
available value returned (an empty-string field-errors value included),
and the status-keyed table only when the body yields nothing. -/
theorem C8_amended (now : Int) (e : ErrVal) :
    Api.getErrorMessage now e = specGetErrorMessage now e := by
  cases e with
  | plainError m => rfl
  | otherValue => rfl
  | axios code msg resp =>
    cases resp with
    | none => rfl
    | some r =>
      cases h1 : Api.strField r.data "error" <;>
        cases h2 : Api.strField r.data "message" <;>
          cases h3 : legacyField r.data "error" <;>
            cases h4 : legacyField r.data "message" <;>
              cases h5 : errorsMapMessage r.data <;>
                simp [Api.getErrorMessage, specGetErrorMessage, specBodyMessage,
                      List.findSome?_cons, h1, h2, h3, h4, h5]

/-- Concrete response whose field-errors map holds a single empty-string
value. -/
def rC8 : ErrResponse :=
  { status := 400, data := some (JVal.jobj [("errors", JVal.jobj [("name", JVal.jstr "")])]),
    headers := [] }

/-- Error built on `rC8`. -/
def eC8 : ErrVal := ErrVal.axios none "Request failed with status code 400" (some rC8)

/-- Claim C8 is false as stated: on a field-errors map whose first value is
the empty string, the classifier returns that empty string — not a
non-empty string, and not the 400 status-table fallback the claim
prescribes when no non-empty string is found. -/
theorem C8_counterexample :
    Api.getErrorMessage 0 eC8 = JVal.jstr "" ∧
    Api.statusMessage 0 none "Request failed with status code 400" rC8 =
      JVal.jstr "Invalid request. Please check your input and try again." ∧
    Api.getErrorMessage 0 eC8 ≠
      Api.statusMessage 0 none "Request failed with status code 400" rC8 := by
  refine ⟨rfl, rfl, ?_⟩
  intro h
  rw [show Api.getErrorMessage 0 eC8 = JVal.jstr "" from rfl,
      show Api.statusMessage 0 none "Request failed with status code 400" rC8 =
        JVal.jstr "Invalid request. Please check your input and try again." from rfl] at h
  injection h with hs
  exact absurd hs (by decide)
